import Mathlib

set_option maxHeartbeats 1000000

/-!
Shallow embedding of `src/AppBlocker.py` (an application-blocking daemon for
macOS: it watches application-launch notifications, matches the launched
bundle identifier against a configured deny-list of patterns, and on a match
terminates the process, optionally alerts the user and optionally deletes the
application bundle; it also installs/uninstalls itself as a LaunchDaemon).

External collaborators (the notification facility, `CFPreferencesCopyAppValue`,
the console-user query, `shutil.rmtree`'s outcome, launchctl's probe exit
codes) are passed in as explicit inputs; everything the script itself computes
is translated directly from the source.  Side effects are recorded as explicit
traces, and Python exceptions as explicit error values.
-/

instance {ε α : Type} [DecidableEq ε] [DecidableEq α] : DecidableEq (Except ε α) := fun a b =>
  match a, b with
  | Except.ok x, Except.ok y =>
      if h : x = y then isTrue (by rw [h]) else isFalse (by simp [h])
  | Except.error x, Except.error y =>
      if h : x = y then isTrue (by rw [h]) else isFalse (by simp [h])
  | Except.ok _, Except.error _ => isFalse (by simp)
  | Except.error _, Except.ok _ => isFalse (by simp)

/-- Python exception outcomes that the embedded code can produce. -/
inductive PyError
  | nameError
  | reError
  | attributeError
  deriving DecidableEq, Repr

/-- Abstract syntax for the regular-expression fragment that the policy
patterns and the combined deny-list pattern use: single characters, `.`
(any character), concatenation, alternation `|` and groups `(...)`.
`nul` is the regex matching nothing (used by the derivative matcher). -/
inductive Regex
  | nul
  | eps
  | dot
  | chr (c : Char)
  | cat (r1 r2 : Regex)
  | alt (r1 r2 : Regex)
  | grp (r : Regex)
  deriving DecidableEq, Repr

/-- Does the regex accept the empty string? -/
def nullable : Regex → Bool
  | .nul => false
  | .eps => true
  | .dot => false
  | .chr _ => false
  | .cat r1 r2 => nullable r1 && nullable r2
  | .alt r1 r2 => nullable r1 || nullable r2
  | .grp r => nullable r

/-- Brzozowski derivative of a regex with respect to one character. -/
def rderiv : Regex → Char → Regex
  | .nul, _ => .nul
  | .eps, _ => .nul
  | .dot, _ => .eps
  | .chr c, d => if d = c then .eps else .nul
  | .cat r1 r2, d =>
      if nullable r1 then .alt (.cat (rderiv r1 d) r2) (rderiv r2 d)
      else .cat (rderiv r1 d) r2
  | .alt r1 r2, d => .alt (rderiv r1 d) (rderiv r2 d)
  | .grp r, d => .grp (rderiv r d)

/-- Semantics of Python's `re.match` primitive for a compiled regex: `re.match`
is anchored at the start of the input but not at its end, so it succeeds
exactly when the regex fully matches some (possibly empty) leading segment of
the input. -/
def matchStart (r : Regex) : List Char → Bool
  | [] => nullable r
  | c :: cs => nullable r || matchStart (rderiv r c) cs

/-- Concatenation of a list of regexes (the parsed atoms of one branch). -/
def concatList : List Regex → Regex
  | [] => .eps
  | [r] => r
  | r :: r' :: rs => .cat r (concatList (r' :: rs))

/-- Alternation of a list of regexes (the parsed `|`-branches). -/
def altListOf : List Regex → Regex
  | [] => .nul
  | [r] => r
  | r :: r' :: rs => .alt r (altListOf (r' :: rs))

/-- Metacharacters of Python's `re` syntax.  The parser below implements the
fragment `chars, '.', '(', ')', '|'` that the embedded deny-list patterns use
and refuses the remaining metacharacters. -/
def re_special (c : Char) : Bool :=
  c == '(' || c == ')' || c == '|' || c == '.' || c == '*' || c == '+' ||
  c == '?' || c == '[' || c == ']' || c == Char.ofNat 123 ||
  c == Char.ofNat 125 || c == '^' || c == '$' || c == '\\'

/-- A parse frame: the `|`-branches finished so far (in reverse) and the atoms
of the branch currently being read (in reverse). -/
abbrev PFrame := List Regex × List Regex

/-- One step of the pattern scanner backing `re.compile`: `(` opens a group,
`)` closes the innermost open group (failing when none is open, as `re.compile`
does on an unbalanced parenthesis), `|` finishes the current branch, `.`
is the any-character atom, other supported characters are literal atoms. -/
def pstep (st : List PFrame) (c : Char) : Option (List PFrame) :=
  if c = '(' then some (([], []) :: st)
  else if c = ')' then
    match st with
    | (alts, cur) :: (alts', cur') :: rest =>
        some ((alts', Regex.grp (altListOf ((concatList cur.reverse :: alts).reverse)) :: cur') :: rest)
    | _ => none
  else if c = '|' then
    match st with
    | (alts, cur) :: rest => some ((concatList cur.reverse :: alts, []) :: rest)
    | [] => none
  else if c = '.' then
    match st with
    | (alts, cur) :: rest => some ((alts, Regex.dot :: cur) :: rest)
    | [] => none
  else if re_special c then none
  else
    match st with
    | (alts, cur) :: rest => some ((alts, Regex.chr c :: cur) :: rest)
    | [] => none

/-- Run the pattern scanner over a list of characters. -/
def prun (st : List PFrame) : List Char → Option (List PFrame)
  | [] => some st
  | c :: cs =>
      match pstep st c with
      | some st' => prun st' cs
      | none => none

/-- Compile a pattern string, as `re.compile` does: scan the characters and
require that every opened group was closed.  `none` models `re.error`. -/
def parseRegex (pattern : String) : Option Regex :=
  match prun [([], [])] pattern.data with
  | some [(alts, cur)] => some (altListOf ((concatList cur.reverse :: alts).reverse))
  | _ => none

/-- Python's `re.match(pattern, string)`: compile the pattern (raising
`re.error` on an invalid pattern), then test an anchored-at-start match. -/
def re_match (pattern s : String) : Except PyError Bool :=
  match parseRegex pattern with
  | none => Except.error PyError.reError
  | some r => Except.ok (matchStart r s.data)

/-- Python's `sep.join(xs)` for strings. -/
def pyJoin (sep : String) : List String → String
  | [] => ""
  | [x] => x
  | x :: x' :: xs => x ++ sep ++ pyJoin sep (x' :: xs)

/-- AppBlocker.py line 212: combine all configured bundle identifiers and
regex strings into one pattern,
`"(" + ")|(".join(blocked_bundle_identifiers) + ")"`. -/
def blocked_bundle_identifiers_combined (blocked_bundle_identifiers : List String) : String :=
  "(" ++ pyJoin ")|(" blocked_bundle_identifiers ++ ")"

/-- Character-level form of `pyJoin ")|(" ids` for a non-empty list, used to
reason about the scanner. -/
def joinChars : List String → List Char
  | [] => []
  | [p] => p.data
  | p :: p' :: ps => p.data ++ ')' :: '|' :: '(' :: joinChars (p' :: ps)

/-- Character-level form of the combined deny-list pattern. -/
def combinedChars (ids : List String) : List Char :=
  '(' :: joinChars ids ++ [')']

/-- One record of the `BlockedApps` preference list (the policy entries).
Field names follow the dictionary keys the script reads:
`Application`, `AlertUser`, `AlertTitle`, `AlertMessage`, `DeleteApp`. -/
structure BlockedApp where
  application : String
  alertUser : Bool
  alertTitle : String
  alertMessage : String
  deleteApp : Bool
  deriving DecidableEq, Repr

/-- The `userInfo` dictionary of the launch notification: keys
`NSApplicationBundleIdentifier`, `NSApplicationName`, `NSApplicationPath`,
`NSApplicationProcessIdentifier`. -/
structure LaunchEvent where
  bundle_identifier : String
  app_name : String
  path : String
  pid : Nat
  deriving DecidableEq, Repr

/-- The failure information carried by a Python `OSError`
(`error.filename`, `error.strerror`). -/
structure OSErrorInfo where
  filename : String
  strerror : String
  deriving DecidableEq, Repr

/-- Observable side effects of one run of the launch-event handler. -/
inductive Effect
  | log (app_name bundle_identifier console_user : String)
  | kill (pid : Nat) (sig : Nat)
  | alertCall (title message : String) (buttons : List String) (icon : Option String)
  | rmtree (path : String)
  | printError (filename strerror : String)
  deriving DecidableEq, Repr

/-- AppBlocker.py lines 225-227: the loop
`for blocked_list in blocked_apps: if blocked_list["Application"] == bundle_identifier: blocked_app = blocked_list`.
The loop variable is never reset, so the last entry whose `Application` field
is string-equal to the identifier wins, and when no entry is equal the name
`blocked_app` stays unbound (`none`). -/
def select_blocked_app (blocked_apps : List BlockedApp) (bundle_identifier : String) :
    Option BlockedApp :=
  blocked_apps.foldl
    (fun blocked_app blocked_list =>
      if blocked_list.application == bundle_identifier then some blocked_list else blocked_app)
    none

/-- Python's `str.format(appname=...)` on the alert title: every occurrence of
the placeholder `\x7bappname\x7d` is replaced by the launched app's name. -/
def replaceAppname (app : List Char) : List Char → List Char
  | [] => []
  | '\x7b' :: 'a' :: 'p' :: 'p' :: 'n' :: 'a' :: 'm' :: 'e' :: '\x7d' :: rest =>
      app ++ replaceAppname app rest
  | c :: rest => c :: replaceAppname app rest

/-- `blocked_app["AlertTitle"].format(appname=app_name)` (line 261). -/
def format_appname (template app_name : String) : String :=
  String.mk (replaceAppname app_name.data template.data)

/-- AppBlocker.py lines 202-272, `AppLaunch.appLaunched_`: handle one launch
notification.  External inputs: the configured `BlockedApps` list (fresh
`CFPreferencesCopyAppValue` read), the notification's `userInfo`, the console
user reported by `scutil`, the alert icon path resolved by the
`try`/`except` of lines 248-258 (external `CFPreferencesCopyAppValue` state;
`none` on failure), and the outcome of `shutil.rmtree`.  Returns the trace of
side effects performed and the Python exception escaping the handler, if any:
the selection loop can leave `blocked_app` unbound, so line 246 can raise
`NameError`, and an invalid pattern makes `re.match` raise `re.error` at line
221 before anything else happens (there is no `try`/`except` around either). -/
def appLaunched_ (blocked_apps : List BlockedApp) (notification : LaunchEvent)
    (console_user : String) (alert_icon_path : Option String)
    (rmtree_result : Except OSErrorInfo Unit) : List Effect × Option PyError :=
  let blocked_bundle_identifiers := blocked_apps.map (fun b => b.application)
  let combined := blocked_bundle_identifiers_combined blocked_bundle_identifiers
  let bundle_identifier := notification.bundle_identifier
  match re_match combined bundle_identifier with
  | Except.error _ => ([], some PyError.reError)
  | Except.ok false => ([], none)
  | Except.ok true =>
      let app_name := notification.app_name
      let selected := select_blocked_app blocked_apps bundle_identifier
      let path := notification.path
      let pid := notification.pid
      let t0 : List Effect :=
        [Effect.log app_name bundle_identifier console_user, Effect.kill pid 9]
      match selected with
      | none => (t0, some PyError.nameError)
      | some blocked_app =>
          let t1 :=
            if blocked_app.alertUser then
              t0 ++ [Effect.alertCall (format_appname blocked_app.alertTitle app_name)
                       blocked_app.alertMessage ["OK"] alert_icon_path]
            else t0
          if blocked_app.deleteApp then
            match rmtree_result with
            | Except.ok _ => (t1 ++ [Effect.rmtree path], none)
            | Except.error e =>
                (t1 ++ [Effect.rmtree path, Effect.printError e.filename e.strerror], none)
          else (t1, none)

/-- The launchctl invocations the lifecycle functions issue (lines 147-192):
modern dialect verbs `print`, `bootstrap`, `enable`, `bootout`; legacy dialect
verbs `list`, `load`, `unload`. -/
inductive LaunchctlCmd
  | print (label : String)
  | bootstrap (location : String)
  | enable (label : String)
  | bootout (label : String)
  | list (label : String)
  | load (location : String)
  | unload (label : String)
  deriving DecidableEq, Repr

/-- The two historical launchctl command dialects. -/
inductive Dialect
  | modern
  | legacy
  deriving DecidableEq, Repr

/-- Which dialect a launchctl verb belongs to. -/
def dialect_of : LaunchctlCmd → Dialect
  | .print _ => .modern
  | .bootstrap _ => .modern
  | .enable _ => .modern
  | .bootout _ => .modern
  | .list _ => .legacy
  | .load _ => .legacy
  | .unload _ => .legacy

/-- AppBlocker.py lines 138-165, `start_daemon`: probe whether the daemon is
known to launchctl, load it if not, and (modern dialect only) enable it.
`probe_exit` is the exit code of the probe invocation (external). -/
def start_daemon (launch_daemon_label launch_daemon_location : String)
    (os_minor_version : Int) (probe_exit : Int) : List LaunchctlCmd :=
  if os_minor_version ≥ 11 then
    LaunchctlCmd.print launch_daemon_label ::
      ((if probe_exit ≠ 0 then [LaunchctlCmd.bootstrap launch_daemon_location] else []) ++
        [LaunchctlCmd.enable launch_daemon_label])
  else if os_minor_version ≤ 10 then
    LaunchctlCmd.list launch_daemon_label ::
      (if probe_exit ≠ 0 then [LaunchctlCmd.load launch_daemon_location] else [])
  else []

/-- AppBlocker.py lines 168-192, `stop_daemon`: probe whether the daemon is
running and stop it if so (note line 192 passes the label, not the plist
location, to `launchctl unload`). -/
def stop_daemon (launch_daemon_label : String)
    (os_minor_version : Int) (probe_exit : Int) : List LaunchctlCmd :=
  if os_minor_version ≥ 11 then
    LaunchctlCmd.print launch_daemon_label ::
      (if probe_exit = 0 then [LaunchctlCmd.bootout launch_daemon_label] else [])
  else if os_minor_version ≤ 10 then
    LaunchctlCmd.list launch_daemon_label ::
      (if probe_exit = 0 then [LaunchctlCmd.unload launch_daemon_label] else [])
  else []

/-- The LaunchDaemon configuration dictionary built by `create_daemon`
(lines 120-132). -/
structure LaunchDaemonPlist where
  label : String
  programArguments : List String
  keepAlive : Bool
  runAtLoad : Bool
  deriving DecidableEq, Repr

/-- `create_daemon` builds this dictionary from its parameters. -/
def launch_daemon_plist (py_executable script_location launch_daemon_label : String) :
    LaunchDaemonPlist :=
  { label := launch_daemon_label,
    programArguments :=
      [py_executable, script_location, "--action", "run", "--domain", launch_daemon_label],
    keepAlive := true,
    runAtLoad := true }

/-- The second argument a Python caller can pass to `plistlib.dump`: either a
bare path string or an opened writable file object. -/
inductive DumpFp
  | path (s : String)
  | fileObject (s : String)
  deriving DecidableEq, Repr

/-- System-level side effects of the lifecycle code. -/
inductive SysEffect
  | copyFile (src dst : String)
  | plistWrite (location : String)
  | launchctl (cmd : LaunchctlCmd)
  deriving DecidableEq, Repr

/-- `plistlib.dump(value, fp)`: `fp` must be a writable binary file object;
`dump` serializes into `fp.write`, so passing a path string raises
`AttributeError` (a `str` has no `write`) and nothing is written. -/
def plistlib_dump (_value : LaunchDaemonPlist) (fp : DumpFp) :
    Except PyError (List SysEffect) :=
  match fp with
  | DumpFp.path _ => Except.error PyError.attributeError
  | DumpFp.fileObject s => Except.ok [SysEffect.plistWrite s]

/-- AppBlocker.py lines 110-135, `create_daemon`: build the LaunchDaemon
dictionary and call `plistlib.dump(launch_daemon_plist, launch_daemon_location)`
-- the second argument is the location path string itself, not a file object. -/
def create_daemon (py_executable script_location launch_daemon_label
    launch_daemon_location : String) : Except PyError (List SysEffect) :=
  plistlib_dump (launch_daemon_plist py_executable script_location launch_daemon_label)
    (DumpFp.path launch_daemon_location)

/-- `__version__` of the running script. -/
def appblocker_version : String := "1.2.0"

/-- External state the `install` action reads: whether the copy at
`script_location` exists, the `__version__` the installed copy reports when
imported, and the exit codes of the launchctl probes. -/
structure InstallHost where
  script_exists : Bool
  installed_version : String
  start_probe_exit : Int
  stop_probe_exit : Int
  deriving DecidableEq, Repr

/-- AppBlocker.py lines 364-408, the `install` branch of `main`: if the
installed copy exists and reports the current version, only `start_daemon`
runs; otherwise the script is copied, `create_daemon` writes the LaunchDaemon
plist, `stop_daemon` runs, and then `start_daemon` runs.  An exception from
`create_daemon` escapes `main` (there is no `try`/`except`), so the effects
stop at the copy. -/
def install_action (host : InstallHost) (script_file py_executable
    launch_daemon_label launch_daemon_location script_location : String)
    (os_minor_version : Int) : List SysEffect × Option PyError :=
  if host.script_exists && (host.installed_version == appblocker_version) then
    ((start_daemon launch_daemon_label launch_daemon_location os_minor_version
        host.start_probe_exit).map SysEffect.launchctl, none)
  else
    match create_daemon py_executable script_location launch_daemon_label
        launch_daemon_location with
    | Except.error e => ([SysEffect.copyFile script_file script_location], some e)
    | Except.ok writes =>
        ([SysEffect.copyFile script_file script_location] ++ writes ++
          (stop_daemon launch_daemon_label os_minor_version host.stop_probe_exit).map
            SysEffect.launchctl ++
          (start_daemon launch_daemon_label launch_daemon_location os_minor_version
            host.start_probe_exit).map SysEffect.launchctl, none)

/-- Is an effect a `plistWrite` (a unit-descriptor write)? -/
def is_plist_write : SysEffect → Bool
  | SysEffect.plistWrite _ => true
  | _ => false

/-- Is an effect a process kill? -/
def is_kill : Effect → Bool
  | Effect.kill _ _ => true
  | _ => false

/-- The parsed CLI arguments. -/
structure CliArgs where
  action : String
  domain : String
  deriving DecidableEq, Repr

/-- Scan `sys.argv[1:]` for an option given by its option strings and return
the following token as its value. -/
def getOptValue (names : List String) : List String → Option String
  | [] => none
  | a :: rest => if names.contains a then rest.head? else getOptValue names rest

/-- `argparse` with `--action`/`-a` and `--domain`/`-d` both declared
`required=True`: `parse_known_args` prints the usage text to stderr and raises
`SystemExit(2)` when a required option is missing or lacks a value (the
numeric payload is the process exit code). -/
def parse_known_args (argv : List String) : Except Nat CliArgs :=
  match getOptValue ["--action", "-a"] argv, getOptValue ["--domain", "-d"] argv with
  | some a, some d => Except.ok { action := a, domain := d }
  | _, _ => Except.error 2

/-- AppBlocker.py lines 326-352, the argument-handling stage of `main`:
`parse_known_args` runs first (exiting with code 2 on a missing required
flag); only afterwards does `main` test `len(sys.argv) > 1`, whose else
branch prints the help text and exits 0.  `user_args` is `sys.argv[1:]`, so
that test is `user_args.length + 1 > 1`.  The result is either the exit code
or the stripped action/domain pair the rest of `main` dispatches on. -/
def main_cli (user_args : List String) : Except Nat CliArgs :=
  match parse_known_args user_args with
  | Except.error code => Except.error code
  | Except.ok args =>
      if user_args.length + 1 > 1 then
        Except.ok { action := args.action.trim, domain := args.domain.trim }
      else Except.error 0

/-- Resolution rule stated by the specification, for comparison with the
code's `select_blocked_app`: the first entry, in policy-list order, whose
individual pattern, independently tested with the anchored match primitive,
matches the identifier. -/
def first_matching_entry (entries : List BlockedApp) (identifier : String) :
    Option BlockedApp :=
  entries.find? (fun e =>
    match re_match e.application identifier with
    | Except.ok true => true
    | _ => false)

/-! Helper lemmas about the derivative matcher. -/

theorem matchStart_eps (s : List Char) : matchStart Regex.eps s = true := by
  cases s <;> simp [matchStart, nullable]

theorem matchStart_nul (s : List Char) : matchStart Regex.nul s = false := by
  induction s with
  | nil => simp [matchStart, nullable]
  | cons c cs ih => simp [matchStart, nullable, rderiv, ih]

theorem matchStart_alt (r1 r2 : Regex) (s : List Char) :
    matchStart (Regex.alt r1 r2) s = (matchStart r1 s || matchStart r2 s) := by
  induction s generalizing r1 r2 with
  | nil => simp [matchStart, nullable]
  | cons c cs ih =>
      simp only [matchStart, nullable, rderiv, ih]
      cases nullable r1 <;> cases nullable r2 <;> simp

theorem matchStart_grp (r : Regex) (s : List Char) :
    matchStart (Regex.grp r) s = matchStart r s := by
  induction s generalizing r with
  | nil => simp [matchStart, nullable]
  | cons c cs ih => simp [matchStart, nullable, rderiv, ih]

theorem matchStart_cat_nul (r : Regex) (s : List Char) :
    matchStart (Regex.cat Regex.nul r) s = false := by
  induction s with
  | nil => simp [matchStart, nullable]
  | cons c cs ih => simp [matchStart, nullable, rderiv, ih]

theorem matchStart_cat_eps (r : Regex) (s : List Char) :
    matchStart (Regex.cat Regex.eps r) s = matchStart r s := by
  cases s with
  | nil => simp [matchStart, nullable]
  | cons c cs =>
      simp [matchStart, nullable, rderiv, matchStart_alt, matchStart_cat_nul]

theorem matchStart_lit (p s : List Char) :
    matchStart (concatList (p.map Regex.chr)) s = p.isPrefixOf s := by
  induction p generalizing s with
  | nil => simp [concatList, matchStart_eps, List.isPrefixOf]
  | cons c cs ih =>
      cases cs with
      | nil =>
          cases s with
          | nil => simp [concatList, matchStart, nullable, List.isPrefixOf]
          | cons d ds =>
              simp only [List.map, concatList, matchStart, nullable, rderiv, Bool.false_or]
              by_cases h : d = c
              · subst h
                simp [matchStart_eps, List.isPrefixOf]
              · simp [h, matchStart_nul, List.isPrefixOf, beq_iff_eq, Ne.symm h]
      | cons c' cs' =>
          cases s with
          | nil => simp [concatList, matchStart, nullable, List.isPrefixOf]
          | cons d ds =>
              simp only [List.map, concatList, matchStart, nullable, rderiv,
                Bool.false_and, Bool.false_or]
              by_cases h : d = c
              · subst h
                simp [matchStart_cat_eps, List.isPrefixOf, beq_iff_eq]
                simpa using ih ds
              · simp [h, matchStart_cat_nul, List.isPrefixOf, beq_iff_eq, Ne.symm h]

theorem matchStart_altListOf (rs : List Regex) (hne : rs ≠ []) (s : List Char) :
    matchStart (altListOf rs) s = rs.any (fun r => matchStart r s) := by
  induction rs with
  | nil => exact absurd rfl hne
  | cons r rs ih =>
      cases rs with
      | nil => simp [altListOf]
      | cons r' rs' =>
          simp [altListOf, matchStart_alt, ih (by simp)]

/-! Helper lemmas about the pattern scanner. -/

theorem prun_append (xs ys : List Char) (st : List PFrame) :
    prun st (xs ++ ys) =
      match prun st xs with
      | some st' => prun st' ys
      | none => none := by
  induction xs generalizing st with
  | nil => simp [prun]
  | cons c cs ih =>
      simp only [List.cons_append, prun]
      cases pstep st c with
      | none => simp
      | some st' => simp [ih]

theorem pstep_lit (c : Char) (h : re_special c = false) (alts cur : List Regex)
    (st : List PFrame) :
    pstep ((alts, cur) :: st) c = some ((alts, Regex.chr c :: cur) :: st) := by
  have h1 : ¬ c = '(' := by rintro rfl; simp [re_special] at h
  have h2 : ¬ c = ')' := by rintro rfl; simp [re_special] at h
  have h3 : ¬ c = '|' := by rintro rfl; simp [re_special] at h
  have h4 : ¬ c = '.' := by rintro rfl; simp [re_special] at h
  simp [pstep, h1, h2, h3, h4, h]

theorem prun_lit (p : List Char) (hlit : ∀ c ∈ p, re_special c = false)
    (alts cur : List Regex) (st : List PFrame) :
    prun ((alts, cur) :: st) p = some ((alts, (p.map Regex.chr).reverse ++ cur) :: st) := by
  induction p generalizing cur with
  | nil => simp [prun]
  | cons c cs ih =>
      have hc := hlit c (by simp)
      simp only [prun, pstep_lit c hc]
      rw [ih (fun d hd => hlit d (by simp [hd]))]
      simp

theorem prun_group (p : List Char) (hlit : ∀ c ∈ p, re_special c = false)
    (alts cur : List Regex) (st : List PFrame) :
    prun ((alts, cur) :: st) ('(' :: p ++ [')']) =
      some ((alts, Regex.grp (concatList (p.map Regex.chr)) :: cur) :: st) := by
  have hopen : pstep ((alts, cur) :: st) '(' = some (([], []) :: (alts, cur) :: st) := by
    simp [pstep]
  simp only [prun, hopen, List.append_eq]
  rw [prun_append p [')']]
  rw [prun_lit p hlit]
  have hclose :
      pstep (([], (p.map Regex.chr).reverse ++ []) :: (alts, cur) :: st) ')' =
        some ((alts,
          Regex.grp (altListOf ((concatList ((p.map Regex.chr).reverse ++ []).reverse :: []).reverse)) :: cur) :: st) := by
    simp [pstep]
  simp only [prun, hclose]
  simp [altListOf]

theorem prun_comb (ps : List String) (p : String) (alts : List Regex)
    (hp : ∀ c ∈ p.data, re_special c = false)
    (hps : ∀ q ∈ ps, ∀ c ∈ q.data, re_special c = false) :
    prun [(alts, [])] (combinedChars (p :: ps)) =
      some [(((p :: ps).dropLast.map
                (fun q => Regex.grp (concatList (q.data.map Regex.chr)))).reverse ++ alts,
             [Regex.grp (concatList
                (((p :: ps).getLast (List.cons_ne_nil p ps)).data.map Regex.chr))])] := by
  induction ps generalizing p alts with
  | nil =>
      simpa [combinedChars, joinChars] using prun_group p.data hp alts [] []
  | cons q qs ih =>
      have hsplit : combinedChars (p :: q :: qs) =
          ('(' :: p.data ++ [')']) ++ '|' :: combinedChars (q :: qs) := by
        simp [combinedChars, joinChars]
      rw [hsplit, prun_append, prun_group p.data hp alts []]
      have hbar : pstep [(alts, [Regex.grp (concatList (p.data.map Regex.chr))])] '|' =
          some [(Regex.grp (concatList (p.data.map Regex.chr)) :: alts, [])] := by
        simp [pstep, concatList]
      simp only [prun, hbar]
      show prun [(Regex.grp (concatList (p.data.map Regex.chr)) :: alts, [])]
          (combinedChars (q :: qs)) = _
      rw [ih q (Regex.grp (concatList (p.data.map Regex.chr)) :: alts)
            (hps q (by simp)) (fun q' hq' c hc => hps q' (by simp [hq']) c hc)]
      simp [List.dropLast_cons₂, List.getLast_cons_cons, List.append_assoc]

theorem data_pyJoin (ids : List String) (hne : ids ≠ []) :
    (pyJoin ")|(" ids).data = joinChars ids := by
  have hsep : (")|(" : String).data = [')', '|', '('] := rfl
  induction ids with
  | nil => exact absurd rfl hne
  | cons p ps ih =>
      cases ps with
      | nil => simp [pyJoin, joinChars]
      | cons q qs =>
          simp [pyJoin, joinChars, String.data_append, hsep, ih (by simp)]

theorem data_combined (ids : List String) :
    (blocked_bundle_identifiers_combined ids).data = combinedChars ids := by
  have h1 : ("(" : String).data = ['('] := rfl
  have h2 : (")" : String).data = [')'] := rfl
  cases ids with
  | nil => decide
  | cons p ps =>
      simp [blocked_bundle_identifiers_combined, combinedChars, String.data_append,
        h1, h2, data_pyJoin (p :: ps) (by simp)]

theorem parseRegex_combined (ids : List String) (hne : ids ≠ [])
    (hlit : ∀ p ∈ ids, ∀ c ∈ p.data, re_special c = false) :
    parseRegex (blocked_bundle_identifiers_combined ids) =
      some (altListOf (ids.map (fun p => Regex.grp (concatList (p.data.map Regex.chr))))) := by
  obtain ⟨p, ps, rfl⟩ : ∃ p ps, ids = p :: ps := by
    cases ids with
    | nil => exact absurd rfl hne
    | cons p ps => exact ⟨p, ps, rfl⟩
  unfold parseRegex
  rw [data_combined, prun_comb ps p []
        (hlit p (by simp)) (fun q hq c hc => hlit q (by simp [hq]) c hc)]
  change some _ = some _
  congr 1
  conv_rhs => rw [← List.dropLast_append_getLast (List.cons_ne_nil p ps)]
  simp [concatList, List.map_append]

theorem any_map_general {α β : Type} (f : α → β) (l : List α) (p : β → Bool) :
    (l.map f).any p = l.any (fun a => p (f a)) := by
  induction l with
  | nil => rfl
  | cons x xs ih => simp [ih]

theorem re_match_combined (ids : List String) (hne : ids ≠ [])
    (hlit : ∀ p ∈ ids, ∀ c ∈ p.data, re_special c = false) (s : String) :
    re_match (blocked_bundle_identifiers_combined ids) s =
      Except.ok (ids.any (fun p => p.data.isPrefixOf s.data)) := by
  unfold re_match
  rw [parseRegex_combined ids hne hlit]
  change Except.ok _ = Except.ok _
  congr 1
  rw [matchStart_altListOf _ (by simpa using hne), any_map_general]
  simp [matchStart_grp, matchStart_lit]

/-! Helper lemmas about the entry-selection loop. -/

theorem isPrefixOf_self (l : List Char) : l.isPrefixOf l = true := by
  induction l with
  | nil => rfl
  | cons c cs ih => simp [List.isPrefixOf, ih]

theorem select_foldl_no_match (bid : String) (apps : List BlockedApp) (acc : Option BlockedApp)
    (h : ∀ a ∈ apps, (a.application == bid) = false) :
    apps.foldl (fun blocked_app blocked_list =>
      if blocked_list.application == bid then some blocked_list else blocked_app) acc = acc := by
  induction apps generalizing acc with
  | nil => rfl
  | cons x xs ih =>
      simp only [List.foldl]
      rw [if_neg (by simp [h x (by simp)])]
      exact ih acc (fun a ha => h a (by simp [ha]))

theorem select_blocked_app_none (apps : List BlockedApp) (bid : String)
    (h : ∀ a ∈ apps, a.application ≠ bid) :
    select_blocked_app apps bid = none := by
  unfold select_blocked_app
  exact select_foldl_no_match bid apps none (fun a ha => by simpa using h a ha)

theorem select_foldl_unique (bid : String) (a : BlockedApp) (ha : a.application = bid)
    (apps : List BlockedApp) :
    ∀ (acc : Option BlockedApp),
      (∀ b ∈ apps, b.application = bid → b = a) →
      (a ∈ apps ∨ acc = some a) →
      apps.foldl (fun blocked_app blocked_list =>
        if blocked_list.application == bid then some blocked_list else blocked_app) acc =
        some a := by
  induction apps with
  | nil =>
      intro acc _ hmem
      rcases hmem with h | h
      · cases h
      · simpa [List.foldl] using h
  | cons x xs ih =>
      intro acc huniq hmem
      simp only [List.foldl]
      by_cases hx : x.application = bid
      · have hxa : x = a := huniq x (by simp) hx
        subst hxa
        rw [if_pos (by simp [hx])]
        exact ih (some x) (fun b hb hb' => huniq b (by simp [hb]) hb') (Or.inr rfl)
      · rw [if_neg (by simp [hx])]
        apply ih acc (fun b hb hb' => huniq b (by simp [hb]) hb')
        rcases hmem with hmem | hmem
        · rcases List.mem_cons.mp hmem with h | h
          · exact absurd (by rw [← h]; exact ha) hx
          · exact Or.inl h
        · exact Or.inr hmem

theorem nodup_map_app_unique (apps : List BlockedApp)
    (hnd : (apps.map (fun b => b.application)).Nodup) :
    ∀ a ∈ apps, ∀ b ∈ apps, b.application = a.application → b = a := by
  induction apps with
  | nil =>
      intro a ha
      cases ha
  | cons x xs ih =>
      rw [List.map_cons, List.nodup_cons] at hnd
      intro a ha b hb heq
      rcases List.mem_cons.mp ha with rfl | ha' <;> rcases List.mem_cons.mp hb with rfl | hb'
      · rfl
      · exact absurd (heq ▸ List.mem_map_of_mem (fun b => b.application) hb') hnd.1
      · exact absurd (heq.symm ▸ List.mem_map_of_mem (fun b => b.application) ha') hnd.1
      · exact ih hnd.2 a ha' b hb' heq

theorem select_blocked_app_unique (apps : List BlockedApp) (a : BlockedApp)
    (hmem : a ∈ apps) (hnd : (apps.map (fun b => b.application)).Nodup) :
    select_blocked_app apps a.application = some a := by
  unfold select_blocked_app
  exact select_foldl_unique a.application a rfl apps none
    (fun b hb hb' => nodup_map_app_unique apps hnd a hmem b hb hb')
    (Or.inl hmem)

theorem select_foldl_reverse (bid : String) (apps : List BlockedApp) (acc : Option BlockedApp) :
    apps.foldl (fun blocked_app blocked_list =>
      if blocked_list.application == bid then some blocked_list else blocked_app) acc =
      (apps.reverse.find? (fun b => b.application == bid)).or acc := by
  induction apps generalizing acc with
  | nil => simp
  | cons x xs ih =>
      simp only [List.foldl, List.reverse_cons]
      rw [ih, List.find?_append, Option.or_assoc]
      congr 1
      by_cases hx : x.application == bid
      · simp [List.find?, hx]
      · simp [List.find?, hx]

/-! Claim theorems. -/

/-- C1: for every launch event that matches the combined deny-list pattern and
whose selected entry has `AlertUser = true` and `DeleteApp = true`, the
handler terminates the process (an immediate SIGKILL, signal 9) strictly
before the alert-display call, and the alert-display call strictly before the
deletion call: the trace starts with the log record, then kill, then alert,
then deletion, in this fixed order, and the handler raises no exception. -/
theorem C1_terminate_before_alert_before_delete
    (blocked_apps : List BlockedApp) (ev : LaunchEvent) (console_user : String)
    (icon : Option String) (rm : Except OSErrorInfo Unit) (app : BlockedApp)
    (hmatch : re_match (blocked_bundle_identifiers_combined
        (blocked_apps.map (fun b => b.application))) ev.bundle_identifier = Except.ok true)
    (hsel : select_blocked_app blocked_apps ev.bundle_identifier = some app)
    (halert : app.alertUser = true) (hdel : app.deleteApp = true) :
    (appLaunched_ blocked_apps ev console_user icon rm).2 = none ∧
    (appLaunched_ blocked_apps ev console_user icon rm).1.take 4 =
      [Effect.log ev.app_name ev.bundle_identifier console_user,
       Effect.kill ev.pid 9,
       Effect.alertCall (format_appname app.alertTitle ev.app_name) app.alertMessage ["OK"] icon,
       Effect.rmtree ev.path] := by
  cases rm with
  | ok u => simp [appLaunched_, hmatch, hsel, halert, hdel]
  | error e => simp [appLaunched_, hmatch, hsel, halert, hdel]

theorem C1_witness :
    (appLaunched_ [⟨"com.example.bad", true, "Blocked", "Not allowed", true⟩]
        ⟨"com.example.bad", "BadApp", "/Applications/BadApp.app", 4242⟩
        "jdoe" none (Except.ok ())).2 = none ∧
    (appLaunched_ [⟨"com.example.bad", true, "Blocked", "Not allowed", true⟩]
        ⟨"com.example.bad", "BadApp", "/Applications/BadApp.app", 4242⟩
        "jdoe" none (Except.ok ())).1.take 4 =
      [Effect.log "BadApp" "com.example.bad" "jdoe",
       Effect.kill 4242 9,
       Effect.alertCall (format_appname "Blocked" "BadApp") "Not allowed" ["OK"] none,
       Effect.rmtree "/Applications/BadApp.app"] :=
  C1_terminate_before_alert_before_delete
    [⟨"com.example.bad", true, "Blocked", "Not allowed", true⟩]
    ⟨"com.example.bad", "BadApp", "/Applications/BadApp.app", 4242⟩
    "jdoe" none (Except.ok ())
    ⟨"com.example.bad", true, "Blocked", "Not allowed", true⟩
    (by decide) (by decide) rfl rfl

/-- C5: for every launch event whose identifier matches the combined pattern
but is not character-for-character equal to the `Application` pattern string
of any configured entry, the handler kills the process (SIGKILL after the log
record) and then raises `NameError` -- the selection variable was never bound
-- so neither the alert step nor the deletion step runs. -/
theorem C5_match_without_equal_entry_kills_then_NameError
    (blocked_apps : List BlockedApp) (ev : LaunchEvent) (console_user : String)
    (icon : Option String) (rm : Except OSErrorInfo Unit)
    (hmatch : re_match (blocked_bundle_identifiers_combined
        (blocked_apps.map (fun b => b.application))) ev.bundle_identifier = Except.ok true)
    (hne : ∀ a ∈ blocked_apps, a.application ≠ ev.bundle_identifier) :
    appLaunched_ blocked_apps ev console_user icon rm =
      ([Effect.log ev.app_name ev.bundle_identifier console_user, Effect.kill ev.pid 9],
       some PyError.nameError) := by
  have hsel : select_blocked_app blocked_apps ev.bundle_identifier = none :=
    select_blocked_app_none blocked_apps ev.bundle_identifier hne
  simp [appLaunched_, hmatch, hsel]

theorem C5_witness :
    appLaunched_ [⟨"com", true, "t", "m", true⟩]
        ⟨"common.app", "Common", "/Applications/Common.app", 7⟩ "jdoe" none (Except.ok ()) =
      ([Effect.log "Common" "common.app" "jdoe", Effect.kill 7 9],
       some PyError.nameError) :=
  C5_match_without_equal_entry_kills_then_NameError
    [⟨"com", true, "t", "m", true⟩]
    ⟨"common.app", "Common", "/Applications/Common.app", 7⟩ "jdoe" none (Except.ok ())
    (by decide) (by decide)

/-- C2 (evaluation at the failing input): with an empty `BlockedApps` list the
combined pattern is `"()"`, which `re.match` matches against every
identifier, so the handler SIGKILLs the launched process and then raises
`NameError` -- contradicting the claim that an empty deny-list matches
nothing, terminates nothing and does not crash. -/
theorem C2_empty_denylist_kills_and_crashes :
    re_match (blocked_bundle_identifiers_combined []) "com.apple.Safari" = Except.ok true ∧
    appLaunched_ [] ⟨"com.apple.Safari", "Safari", "/Applications/Safari.app", 101⟩
        "jdoe" none (Except.ok ()) =
      ([Effect.log "Safari" "com.apple.Safari" "jdoe", Effect.kill 101 9],
       some PyError.nameError) := by
  constructor
  · decide
  · decide

/-- C6 (counterexample): with the single configured pattern `"("` -- an
invalid regular expression, unbalanced parenthesis -- the handler neither
catches nor logs anything: it performs no side effect at all and the
`re.error` raised by the match call at line 221 escapes the per-event
handler, so the error is not "caught at the per-event boundary and logged". -/
theorem C6_counterexample :
    (appLaunched_ [⟨"(", true, "t", "m", true⟩]
        ⟨"com.apple.Safari", "Safari", "/Applications/Safari.app", 101⟩
        "jdoe" none (Except.ok ())).2 = some PyError.reError ∧
    (appLaunched_ [⟨"(", true, "t", "m", true⟩]
        ⟨"com.apple.Safari", "Safari", "/Applications/Safari.app", 101⟩
        "jdoe" none (Except.ok ())).1 = [] := by
  constructor
  · decide
  · decide

/-- C6 (amended): for every launch event handled under a policy whose single
entry carries the invalid pattern `"("` (any flag values), the combined
pattern `"(()"` fails to compile, so the event is dropped before any
enforcement -- the launched process is not terminated and no side effect is
performed -- but the handler itself contains no catch or log for this error:
the `re.error` exception propagates out of the per-event handler. -/
theorem C6_amended_invalid_pattern_raises_uncaught
    (ev : LaunchEvent) (console_user : String) (icon : Option String)
    (rm : Except OSErrorInfo Unit) (au : Bool) (t m : String) (da : Bool) :
    appLaunched_ [⟨"(", au, t, m, da⟩] ev console_user icon rm =
      ([], some PyError.reError) := rfl

/-- C3 (counterexample): two distinct entries both carry the pattern
`"com.x"`, so the identifier `"com.x"` matches more than one configured
pattern.  The first entry whose individual pattern independently matches is
the first one, but the code's selection loop binds the second (last) entry:
the entry driving enforcement is not the first matching entry. -/
theorem C3_counterexample :
    select_blocked_app
        [⟨"com.x", false, "", "", false⟩, ⟨"com.x", false, "", "", true⟩] "com.x" =
      some ⟨"com.x", false, "", "", true⟩ ∧
    first_matching_entry
        [⟨"com.x", false, "", "", false⟩, ⟨"com.x", false, "", "", true⟩] "com.x" =
      some ⟨"com.x", false, "", "", false⟩ ∧
    (⟨"com.x", false, "", "", true⟩ : BlockedApp) ≠ ⟨"com.x", false, "", "", false⟩ := by
  refine ⟨by decide, by decide, by decide⟩

/-- C3 (amended): the entry the handler binds for enforcement is the last
entry, in policy-list order, whose `Application` pattern string is
character-for-character equal to the identifier (pattern matching plays no
role in the selection loop); when no entry is string-equal, no entry is
bound. -/
theorem C3_amended_selection_is_last_equal_entry
    (blocked_apps : List BlockedApp) (bundle_identifier : String) :
    select_blocked_app blocked_apps bundle_identifier =
      blocked_apps.reverse.find? (fun b => b.application == bundle_identifier) := by
  unfold select_blocked_app
  rw [select_foldl_reverse]
  cases blocked_apps.reverse.find? (fun b => b.application == bundle_identifier) <;> rfl

/-- C4: for every non-empty list of policy entries whose `Application`
patterns are distinct literal strings (no regex metacharacters): matching an
identifier equal to one of the patterns succeeds and the selection loop
returns that pattern's entry; an identifier of which a listed pattern is a
prefix still matches (the combined match is anchored at the start but not at
the end -- prefix semantics, not full-string match); and an identifier with
no listed pattern as a prefix does not match, so the handler performs no
effect and raises nothing. -/
theorem C4_literal_patterns_compile_and_match
    (blocked_apps : List BlockedApp)
    (hne : blocked_apps ≠ [])
    (hnd : (blocked_apps.map (fun b => b.application)).Nodup)
    (hlit : ∀ a ∈ blocked_apps, ∀ c ∈ a.application.data, re_special c = false) :
    (∀ a ∈ blocked_apps,
      re_match (blocked_bundle_identifiers_combined
          (blocked_apps.map (fun b => b.application))) a.application = Except.ok true ∧
      select_blocked_app blocked_apps a.application = some a) ∧
    (∀ a ∈ blocked_apps, ∀ s : String, a.application.data.isPrefixOf s.data = true →
      re_match (blocked_bundle_identifiers_combined
          (blocked_apps.map (fun b => b.application))) s = Except.ok true) ∧
    (∀ s : String, (∀ a ∈ blocked_apps, a.application.data.isPrefixOf s.data = false) →
      re_match (blocked_bundle_identifiers_combined
          (blocked_apps.map (fun b => b.application))) s = Except.ok false ∧
      ∀ (console_user an pth : String) (icon : Option String)
        (rm : Except OSErrorInfo Unit) (pid : Nat),
        appLaunched_ blocked_apps ⟨s, an, pth, pid⟩ console_user icon rm = ([], none)) := by
  have hids_ne : blocked_apps.map (fun b => b.application) ≠ [] := by simpa using hne
  have hlit' : ∀ q ∈ blocked_apps.map (fun b => b.application),
      ∀ c ∈ q.data, re_special c = false := by
    intro q hq
    obtain ⟨a, ha, rfl⟩ := List.mem_map.mp hq
    exact hlit a ha
  have hmatch := re_match_combined (blocked_apps.map (fun b => b.application)) hids_ne hlit'
  refine ⟨?_, ?_, ?_⟩
  · intro a ha
    have hany : (blocked_apps.map (fun b => b.application)).any
        (fun p => p.data.isPrefixOf a.application.data) = true :=
      List.any_eq_true.mpr
        ⟨a.application, List.mem_map_of_mem (fun b => b.application) ha, isPrefixOf_self _⟩
    exact ⟨by rw [hmatch, hany], select_blocked_app_unique blocked_apps a ha hnd⟩
  · intro a ha s hpre
    have hany : (blocked_apps.map (fun b => b.application)).any
        (fun p => p.data.isPrefixOf s.data) = true :=
      List.any_eq_true.mpr
        ⟨a.application, List.mem_map_of_mem (fun b => b.application) ha, hpre⟩
    rw [hmatch, hany]
  · intro s hnone
    have hany : (blocked_apps.map (fun b => b.application)).any
        (fun p => p.data.isPrefixOf s.data) = false := by
      rw [List.any_eq_false]
      intro p hp
      obtain ⟨a, ha, rfl⟩ := List.mem_map.mp hp
      simp [hnone a ha]
    have hm : re_match (blocked_bundle_identifiers_combined
        (blocked_apps.map (fun b => b.application))) s = Except.ok false := by
      rw [hmatch, hany]
    refine ⟨hm, ?_⟩
    intro console_user an pth icon rm pid
    simp [appLaunched_, hm]

theorem C4_witness :
    (re_match (blocked_bundle_identifiers_combined ["aaa", "bb"]) "aaa" = Except.ok true ∧
      select_blocked_app [⟨"aaa", true, "t", "m", false⟩, ⟨"bb", false, "", "", true⟩] "aaa" =
        some ⟨"aaa", true, "t", "m", false⟩) ∧
    re_match (blocked_bundle_identifiers_combined ["aaa", "bb"]) "bbc" = Except.ok true ∧
    re_match (blocked_bundle_identifiers_combined ["aaa", "bb"]) "zzz" = Except.ok false :=
  ⟨(C4_literal_patterns_compile_and_match
      [⟨"aaa", true, "t", "m", false⟩, ⟨"bb", false, "", "", true⟩]
      (by decide) (by decide) (by decide)).1
    ⟨"aaa", true, "t", "m", false⟩ (by decide),
   (C4_literal_patterns_compile_and_match
      [⟨"aaa", true, "t", "m", false⟩, ⟨"bb", false, "", "", true⟩]
      (by decide) (by decide) (by decide)).2.1
    ⟨"bb", false, "", "", true⟩ (by decide) "bbc" (by decide),
   ((C4_literal_patterns_compile_and_match
      [⟨"aaa", true, "t", "m", false⟩, ⟨"bb", false, "", "", true⟩]
      (by decide) (by decide) (by decide)).2.2 "zzz" (by decide)).1⟩

/-- C7: the launchctl command dialect is a pure function of the supplied OS
minor version: every minor version with 11 ≤ v makes `start_daemon` and
`stop_daemon` issue only modern-dialect verbs (print/bootstrap/enable/
bootout), and every minor version with v ≤ 10 only legacy-dialect verbs
(list/load/unload); in either case at least the probe verb of the selected
dialect is issued, and in particular minor version 11 selects the modern
dialect. -/
theorem C7_dialect_pure_function_of_minor_version
    (label location : String) (v probe_start probe_stop : Int) :
    (11 ≤ v →
      (∀ c ∈ start_daemon label location v probe_start, dialect_of c = Dialect.modern) ∧
      (∀ c ∈ stop_daemon label v probe_stop, dialect_of c = Dialect.modern) ∧
      start_daemon label location v probe_start ≠ [] ∧
      stop_daemon label v probe_stop ≠ []) ∧
    (v ≤ 10 →
      (∀ c ∈ start_daemon label location v probe_start, dialect_of c = Dialect.legacy) ∧
      (∀ c ∈ stop_daemon label v probe_stop, dialect_of c = Dialect.legacy) ∧
      start_daemon label location v probe_start ≠ [] ∧
      stop_daemon label v probe_stop ≠ []) := by
  constructor
  · intro h
    have h11 : v ≥ 11 := h
    by_cases hp : probe_start ≠ 0 <;> by_cases hq : probe_stop = 0 <;>
      refine ⟨?_, ?_, ?_, ?_⟩ <;>
        simp [start_daemon, stop_daemon, h11, hp, hq, dialect_of]
  · intro h
    have h11 : ¬ (v ≥ 11) := by omega
    by_cases hp : probe_start ≠ 0 <;> by_cases hq : probe_stop = 0 <;>
      refine ⟨?_, ?_, ?_, ?_⟩ <;>
        simp [start_daemon, stop_daemon, h11, h, hp, hq, dialect_of]

theorem C7_witness :
    (∀ c ∈ start_daemon "com.example.blocked"
        "/Library/LaunchDaemons/com.example.blocked.plist" 11 1,
      dialect_of c = Dialect.modern) ∧
    (∀ c ∈ stop_daemon "com.example.blocked" 11 0, dialect_of c = Dialect.modern) ∧
    start_daemon "com.example.blocked"
      "/Library/LaunchDaemons/com.example.blocked.plist" 11 1 ≠ [] ∧
    stop_daemon "com.example.blocked" 11 0 ≠ [] :=
  (C7_dialect_pure_function_of_minor_version "com.example.blocked"
      "/Library/LaunchDaemons/com.example.blocked.plist" 11 1 0).1 (by decide)

/-- C8 (evaluation at the failing input): on a host where the installed copy
is absent, `install` copies the script and then crashes: `create_daemon`
passes the plist location path string to `plistlib.dump`, which requires a
writable file object, so `AttributeError` is raised before any
unit-descriptor write and before any launchctl call.  A second run -- the
copy now exists and reports the current version 1.2.0 -- issues only
launchctl start commands and no write.  Two consecutive installs of the same
program version therefore perform zero unit-descriptor writes (the claim
requires exactly one, with the unit left enabled). -/
theorem C8_install_crashes_before_descriptor_write :
    install_action ⟨false, "", 1, 1⟩ "AppBlocker.py" "/usr/bin/python3"
        "com.example.blocked" "/Library/LaunchDaemons/com.example.blocked.plist"
        "/usr/local/bin/AppBlocker" 11 =
      ([SysEffect.copyFile "AppBlocker.py" "/usr/local/bin/AppBlocker"],
       some PyError.attributeError) ∧
    (install_action ⟨true, "1.2.0", 1, 1⟩ "AppBlocker.py" "/usr/bin/python3"
        "com.example.blocked" "/Library/LaunchDaemons/com.example.blocked.plist"
        "/usr/local/bin/AppBlocker" 11).2 = none ∧
    ((install_action ⟨false, "", 1, 1⟩ "AppBlocker.py" "/usr/bin/python3"
        "com.example.blocked" "/Library/LaunchDaemons/com.example.blocked.plist"
        "/usr/local/bin/AppBlocker" 11).1 ++
      (install_action ⟨true, "1.2.0", 1, 1⟩ "AppBlocker.py" "/usr/bin/python3"
        "com.example.blocked" "/Library/LaunchDaemons/com.example.blocked.plist"
        "/usr/local/bin/AppBlocker" 11).1).filter is_plist_write = [] := by
  refine ⟨by decide, by decide, by decide⟩

/-- C9: for every matched launch event whose selected entry has
`DeleteApp = true`, a failure of the recursive deletion is caught and
recorded (the offending `error.filename` and `error.strerror` are printed)
and does not escalate: the handler raises no exception, the termination call
happened exactly once (only one kill appears in the trace, at position 1,
directly after the log record), and the failure record is the last effect,
after the deletion attempt. -/
theorem C9_delete_failure_caught_kill_preserved
    (blocked_apps : List BlockedApp) (ev : LaunchEvent) (console_user : String)
    (icon : Option String) (e : OSErrorInfo) (app : BlockedApp)
    (hmatch : re_match (blocked_bundle_identifiers_combined
        (blocked_apps.map (fun b => b.application))) ev.bundle_identifier = Except.ok true)
    (hsel : select_blocked_app blocked_apps ev.bundle_identifier = some app)
    (hdel : app.deleteApp = true) :
    (appLaunched_ blocked_apps ev console_user icon (Except.error e)).2 = none ∧
    (appLaunched_ blocked_apps ev console_user icon (Except.error e)).1.filter is_kill =
      [Effect.kill ev.pid 9] ∧
    (appLaunched_ blocked_apps ev console_user icon (Except.error e)).1[1]? =
      some (Effect.kill ev.pid 9) ∧
    (appLaunched_ blocked_apps ev console_user icon (Except.error e)).1.getLast? =
      some (Effect.printError e.filename e.strerror) ∧
    4 ≤ (appLaunched_ blocked_apps ev console_user icon (Except.error e)).1.length := by
  cases happ : app.alertUser with
  | false =>
      have hres : appLaunched_ blocked_apps ev console_user icon (Except.error e) =
          ([Effect.log ev.app_name ev.bundle_identifier console_user,
            Effect.kill ev.pid 9, Effect.rmtree ev.path,
            Effect.printError e.filename e.strerror], none) := by
        simp [appLaunched_, hmatch, hsel, hdel, happ]
      rw [hres]
      exact ⟨rfl, rfl, rfl, rfl, by simp⟩
  | true =>
      have hres : appLaunched_ blocked_apps ev console_user icon (Except.error e) =
          ([Effect.log ev.app_name ev.bundle_identifier console_user,
            Effect.kill ev.pid 9,
            Effect.alertCall (format_appname app.alertTitle ev.app_name)
              app.alertMessage ["OK"] icon,
            Effect.rmtree ev.path,
            Effect.printError e.filename e.strerror], none) := by
        simp [appLaunched_, hmatch, hsel, hdel, happ]
      rw [hres]
      exact ⟨rfl, rfl, rfl, rfl, by simp⟩

theorem C9_witness :
    (appLaunched_ [⟨"com.example.bad", false, "", "", true⟩]
        ⟨"com.example.bad", "BadApp", "/Applications/BadApp.app", 4242⟩
        "jdoe" none (Except.error ⟨"/Applications/BadApp.app", "Permission denied"⟩)).2 =
      none ∧
    (appLaunched_ [⟨"com.example.bad", false, "", "", true⟩]
        ⟨"com.example.bad", "BadApp", "/Applications/BadApp.app", 4242⟩
        "jdoe" none (Except.error ⟨"/Applications/BadApp.app", "Permission denied"⟩)).1.filter
        is_kill = [Effect.kill 4242 9] ∧
    (appLaunched_ [⟨"com.example.bad", false, "", "", true⟩]
        ⟨"com.example.bad", "BadApp", "/Applications/BadApp.app", 4242⟩
        "jdoe" none (Except.error ⟨"/Applications/BadApp.app", "Permission denied"⟩)).1[1]? =
      some (Effect.kill 4242 9) ∧
    (appLaunched_ [⟨"com.example.bad", false, "", "", true⟩]
        ⟨"com.example.bad", "BadApp", "/Applications/BadApp.app", 4242⟩
        "jdoe" none
        (Except.error ⟨"/Applications/BadApp.app", "Permission denied"⟩)).1.getLast? =
      some (Effect.printError "/Applications/BadApp.app" "Permission denied") ∧
    4 ≤ (appLaunched_ [⟨"com.example.bad", false, "", "", true⟩]
        ⟨"com.example.bad", "BadApp", "/Applications/BadApp.app", 4242⟩
        "jdoe" none
        (Except.error ⟨"/Applications/BadApp.app", "Permission denied"⟩)).1.length :=
  C9_delete_failure_caught_kill_preserved
    [⟨"com.example.bad", false, "", "", true⟩]
    ⟨"com.example.bad", "BadApp", "/Applications/BadApp.app", 4242⟩
    "jdoe" none ⟨"/Applications/BadApp.app", "Permission denied"⟩
    ⟨"com.example.bad", false, "", "", true⟩
    (by decide) (by decide) rfl

/-- C10 (counterexample): invoking the program with `--domain` but without
the required `--action` flag makes `parse_known_args` print the usage text
and exit with code 2 (argparse's error exit for missing required arguments),
not 0 as the claim states; the print-help-and-exit-0 branch of `main` is
never reached. -/
theorem C10_counterexample :
    main_cli ["--domain", "com.example.blocked"] = Except.error 2 ∧
    (Except.error 2 : Except Nat CliArgs) ≠ Except.error 0 := by
  refine ⟨by decide, by decide⟩

/-- C10 (amended): for every invocation in which a required CLI flag
(`--action`/`-a` or `--domain`/`-d`) is missing, `argparse` prints the usage
text and the program exits with code 2 (the exit-0 help branch after
`parse_known_args` is unreachable for missing required flags). -/
theorem C10_amended_missing_flag_exits_2 (user_args : List String)
    (h : getOptValue ["--action", "-a"] user_args = none ∨
         getOptValue ["--domain", "-d"] user_args = none) :
    main_cli user_args = Except.error 2 := by
  unfold main_cli parse_known_args
  rcases h with h | h
  · rw [h]
  · rw [h]
    cases getOptValue ["--action", "-a"] user_args <;> rfl

theorem C10_witness : main_cli ["-d", "com.example.blocked"] = Except.error 2 :=
  C10_amended_missing_flag_exits_2 ["-d", "com.example.blocked"] (Or.inl (by decide))
